import Mathlib

/-!
Verification of the credit-manager action-batch execution pipeline of
mars-protocol-contracts against its natural-language specification.

The repository fragment ships only the integration tests
(`contracts/credit-manager/tests/tests/test_swap.rs`) and a schema stub; the
execution pipeline itself (authorization guard, action validator, balance
ledger, swap coordinator, batch executor) is not part of the fragment.  Each
definition below is therefore modelled from the specification, with the test
file constraining concrete behaviour (error values, observable positions).
-/

namespace MarsCredit

/-- A token denomination, an opaque string identifier. -/
abbrev Denom := String

/-- Modelled from the spec: the Balance Ledger, "a per-account mapping from
denomination to a non-negative integer amount"; the executable code for it is
missing from the fragment.  Represented as an association list in pruned form:
"entries with zero amount may be pruned but their absence is equivalent to an
implicit zero", and the tests observe the queried deposit list with drained
entries absent, so the model keeps no zero entries. -/
abbrev Ledger := List (Denom × Nat)

/-- Modelled from the spec: reading a ledger entry; an absent entry is an
implicit zero. -/
def getBalance : Ledger → Denom → Nat
  | [], _ => 0
  | (k, v) :: t, d => if d = k then v else getBalance t d

/-- Removes every entry for `d` from the ledger. -/
def eraseDenom : Ledger → Denom → Ledger
  | [], _ => []
  | (k, v) :: t, d => if k = d then eraseDenom t d else (k, v) :: eraseDenom t d

/-- Overwrites every entry for `d` with the amount `n`, keeping its place. -/
def replaceAmt : Ledger → Denom → Nat → Ledger
  | [], _, _ => []
  | (k, v) :: t, d, n =>
    if k = d then (k, n) :: replaceAmt t d n else (k, v) :: replaceAmt t d n

/-- Whether the ledger holds an entry for `d`. -/
def hasDenom : Ledger → Denom → Bool
  | [], _ => false
  | (k, _) :: t, d => if k = d then true else hasDenom t d

/-- Modelled from the spec: writing a ledger entry in pruned form — a zero
amount removes the entry, a positive amount overwrites it in place or appends
a fresh entry. -/
def setBalance (l : Ledger) (d : Denom) (n : Nat) : Ledger :=
  if n = 0 then eraseDenom l d
  else if hasDenom l d then replaceAmt l d n
  else l ++ [(d, n)]

/-- Modelled from the spec: `credit(denom, amount)` "adds amount to the entry
for denom (creating it if absent). Never fails."  The missing ledger code is
modelled here. -/
def credit (l : Ledger) (d : Denom) (n : Nat) : Ledger :=
  setBalance l d (getBalance l d + n)

/-- Errors surfaced by the batch executor, following the spec's error
taxonomy (section 7) and the concrete error values asserted by
`test_swap.rs`.  `Overflow` carries the checked subtraction's operands
(`operation` is always `Sub` here). -/
inductive ContractError where
  | NotTokenOwner (user : String) (accountId : String)
  | NotWhitelisted (denom : Denom)
  | NoAmount
  | SlippageExceeded (slippage : Nat) (maxSlippage : Nat)
  | Overflow (operand1 : Nat) (operand2 : Nat)
  | SwapRejected
deriving DecidableEq, Repr

/-- Modelled from the spec: `debit(denom, amount)` "subtracts amount from the
entry for denom. Fails with `Overflow{ operation: Sub, operand1: <current>,
operand2: <amount> }` if amount exceeds current balance — this is a
checked-subtraction contract, never a silent saturate-to-zero." -/
def debit (l : Ledger) (d : Denom) (n : Nat) : Except ContractError Ledger :=
  if n ≤ getBalance l d then .ok (setBalance l d (getBalance l d - n))
  else .error (.Overflow (getBalance l d) n)

/-- The requested amount of an action coin: either an exact amount or the
full-balance sentinel `AccountBalance`, resolved lazily at execution time. -/
inductive ActionAmount where
  | Exact (amount : Nat)
  | AccountBalance
deriving DecidableEq, Repr

/-- A coin whose amount may be the full-balance sentinel. -/
structure ActionCoin where
  denom : Denom
  amount : ActionAmount
deriving DecidableEq, Repr

/-- The action variants relevant to the core: `Deposit(coin)` and
`SwapExactIn(coin_in, denom_out, slippage)`.  Slippage is a `Decimal` in the
source, a fixed-point fraction with 18 decimal places; it is modelled by its
count of atomics (a `Nat`), on which the order is the same. -/
inductive Action where
  | Deposit (denom : Denom) (amount : Nat)
  | SwapExactIn (coinIn : ActionCoin) (denomOut : Denom) (slippage : Nat)
deriving DecidableEq, Repr

/-- One unit (1.0) of slippage, in atomics of the 18-decimal fixed-point
representation. -/
def SLIPPAGE_ONE : Nat := 10 ^ 18

/-- Modelled from the spec: the external Swapper collaborator, specified only
at its interface boundary.  With no intervening ledger change its quote for a
given `(denom_in, amount_in, denom_out)` is a fixed value, captured by
`rate`; both `estimate` and `execute` consult it. -/
structure Swapper where
  rate : Denom → Nat → Denom → Nat

/-- Modelled from the spec: `estimate(denom_in, amount_in, denom_out) →
amount_out`, "a pure, non-mutating preview". -/
def Swapper.estimate (sw : Swapper) (dIn : Denom) (amtIn : Nat) (dOut : Denom) : Nat :=
  sw.rate dIn amtIn dOut

/-- Modelled from the spec: `execute(denom_in, amount_in, denom_out, min_out)
→ amount_out`, "mutating, fails if it cannot honor min_out". -/
def Swapper.execute (sw : Swapper) (dIn : Denom) (amtIn : Nat) (dOut : Denom)
    (minOut : Nat) : Except ContractError Nat :=
  let out := sw.rate dIn amtIn dOut
  if out < minOut then .error .SwapRejected else .ok out

/-- Modelled from the spec: the environment of external read-only
collaborators — the whitelist of tradable denominations, the protocol-wide
maximum slippage (in atomics) and the Swapper. -/
structure Env where
  whitelist : List Denom
  maxSlippage : Nat
  swapper : Swapper

/-- Modelled from the spec: full-balance resolution — an exact amount is
taken as is, while the full-balance sentinel reads "the *current* ledger
entry for that denomination at the moment the action executes within the
batch". -/
def resolveAmount (l : Ledger) (c : ActionCoin) : Nat :=
  match c.amount with
  | .Exact n => n
  | .AccountBalance => getBalance l c.denom

/-- Modelled from the spec: the Action Validator's `SwapExactIn` checks, in
the order the spec lists them — `denom_out` whitelisted, resolved amount
positive, slippage within the effective ceiling.  Returns the resolved input
amount. -/
def validateSwap (env : Env) (l : Ledger) (coinIn : ActionCoin) (denomOut : Denom)
    (slippage : Nat) : Except ContractError Nat :=
  if denomOut ∈ env.whitelist then
    if resolveAmount l coinIn = 0 then .error .NoAmount
    else if env.maxSlippage < slippage then
      .error (.SlippageExceeded slippage env.maxSlippage)
    else .ok (resolveAmount l coinIn)
  else .error (.NotWhitelisted denomOut)

/-- Modelled from the spec: the `min_out` policy — the exact formula is left
configurable by the spec; this model derives it from the pre-trade estimate
and the slippage bound as `estimate · (1 − slippage)`, truncating. -/
def minOutFromEstimate (est slippage : Nat) : Nat :=
  est - est * slippage / SLIPPAGE_ONE

/-- Modelled from the spec: the Swap Coordinator — validate, debit `denom_in`
by the resolved amount (failing with `Overflow` if insufficient), invoke the
Swapper with the estimate-derived `min_out`, then credit `denom_out` by the
returned `amount_out`. -/
def execSwap (env : Env) (l : Ledger) (coinIn : ActionCoin) (denomOut : Denom)
    (slippage : Nat) : Except ContractError Ledger := do
  let amt ← validateSwap env l coinIn denomOut slippage
  let l2 ← debit l coinIn.denom amt
  let out ← env.swapper.execute coinIn.denom amt denomOut
    (minOutFromEstimate (env.swapper.estimate coinIn.denom amt denomOut) slippage)
  pure (credit l2 denomOut out)

/-- Modelled from the spec: routing one action — `Deposit` credits the coin
(positive amount enforced by the caller, out of scope), `SwapExactIn` runs
the Swap Coordinator. -/
def execAction (env : Env) (l : Ledger) : Action → Except ContractError Ledger
  | .Deposit d n => .ok (credit l d n)
  | .SwapExactIn coinIn denomOut slippage => execSwap env l coinIn denomOut slippage

/-- Modelled from the spec: the Batch Executor's `Executing` loop — actions
run strictly in order, threading the ledger; the first failure aborts with
that action's error and no subsequent action runs. -/
def execActions (env : Env) (l : Ledger) : List Action → Except ContractError Ledger
  | [] => .ok l
  | a :: rest => do
    let l2 ← execAction env l a
    execActions env l2 rest

/-- Modelled from the spec: the Authorization Guard — "succeeds iff the
caller is the account's current owner. Fails with `NotTokenOwner{ caller,
account_id }` otherwise." -/
def assertIsTokenOwner (owner caller accountId : String) : Except ContractError Unit :=
  if caller = owner then .ok () else .error (.NotTokenOwner caller accountId)

/-- Modelled from the spec: the Batch Executor — authorization once per
batch, before any action is processed, then the sequential action loop. -/
def execBatch (env : Env) (owner caller accountId : String) (l : Ledger)
    (actions : List Action) : Except ContractError Ledger :=
  match assertIsTokenOwner owner caller accountId with
  | .error e => .error e
  | .ok _ => execActions env l actions

/-- Modelled from the spec: the observable ledger after a batch attempt — on
success the committed ledger, on any failure the pre-batch ledger ("the host
execution environment is assumed to already provide all-or-nothing visibility
for the whole request"). -/
def attemptBatch (env : Env) (owner caller accountId : String) (l : Ledger)
    (actions : List Action) : Ledger :=
  match execBatch env owner caller accountId l actions with
  | .ok l2 => l2
  | .error _ => l

/-- Modelled from the spec: the companion read-only estimate query,
delegating to the Swapper's `estimate`. -/
def querySwapEstimate (env : Env) (dIn : Denom) (amtIn : Nat) (dOut : Denom) : Nat :=
  env.swapper.estimate dIn amtIn dOut

/-! ### Ledger lemmas -/

theorem getBalance_eraseDenom_self (l : Ledger) (d : Denom) :
    getBalance (eraseDenom l d) d = 0 := by
  induction l with
  | nil => rfl
  | cons p t ih =>
    obtain ⟨k, v⟩ := p
    by_cases h : k = d
    · simpa [eraseDenom, h] using ih
    · simpa [eraseDenom, getBalance, h, Ne.symm h] using ih

theorem getBalance_eraseDenom_ne (l : Ledger) {d e : Denom} (h : e ≠ d) :
    getBalance (eraseDenom l d) e = getBalance l e := by
  induction l with
  | nil => rfl
  | cons p t ih =>
    obtain ⟨k, v⟩ := p
    by_cases hk : k = d
    · subst hk
      simpa [eraseDenom, getBalance, h] using ih
    · by_cases he : e = k
      · simp [eraseDenom, getBalance, hk, he]
      · simpa [eraseDenom, getBalance, hk, he] using ih

theorem getBalance_replaceAmt_self (l : Ledger) (d : Denom) (n : Nat)
    (h : hasDenom l d = true) :
    getBalance (replaceAmt l d n) d = n := by
  induction l with
  | nil => simp [hasDenom] at h
  | cons p t ih =>
    obtain ⟨k, v⟩ := p
    by_cases hk : k = d
    · simp [replaceAmt, getBalance, hk]
    · simp only [hasDenom, if_neg hk] at h
      simpa [replaceAmt, getBalance, hk, Ne.symm hk] using ih h

theorem getBalance_replaceAmt_ne (l : Ledger) {d e : Denom} (n : Nat) (h : e ≠ d) :
    getBalance (replaceAmt l d n) e = getBalance l e := by
  induction l with
  | nil => rfl
  | cons p t ih =>
    obtain ⟨k, v⟩ := p
    by_cases hk : k = d
    · subst hk
      simpa [replaceAmt, getBalance, h] using ih
    · by_cases he : e = k
      · simp [replaceAmt, getBalance, hk, he]
      · simpa [replaceAmt, getBalance, hk, he] using ih

theorem getBalance_append_not_has {l : Ledger} {d : Denom}
    (h : hasDenom l d = false) (l2 : Ledger) :
    getBalance (l ++ l2) d = getBalance l2 d := by
  induction l with
  | nil => rfl
  | cons p t ih =>
    obtain ⟨k, v⟩ := p
    by_cases hk : k = d
    · simp [hasDenom, hk] at h
    · simp only [hasDenom, if_neg hk] at h
      simpa [List.cons_append, getBalance, Ne.symm hk] using ih h

theorem getBalance_append_singleton_ne (l : Ledger) {d e : Denom} (n : Nat)
    (h : e ≠ d) : getBalance (l ++ [(d, n)]) e = getBalance l e := by
  induction l with
  | nil => simp [getBalance, h]
  | cons p t ih =>
    obtain ⟨k, v⟩ := p
    by_cases he : e = k
    · simp [List.cons_append, getBalance, he]
    · simpa [List.cons_append, getBalance, he] using ih

theorem getBalance_setBalance_self (l : Ledger) (d : Denom) (n : Nat) :
    getBalance (setBalance l d n) d = n := by
  unfold setBalance
  by_cases h0 : n = 0
  · simp [h0, getBalance_eraseDenom_self]
  · cases hs : hasDenom l d with
    | true => simp [h0, getBalance_replaceAmt_self l d n hs]
    | false => simp [h0, hs, getBalance_append_not_has hs, getBalance]

theorem getBalance_setBalance_ne (l : Ledger) {d e : Denom} (n : Nat) (h : e ≠ d) :
    getBalance (setBalance l d n) e = getBalance l e := by
  unfold setBalance
  by_cases h0 : n = 0
  · simp [h0, getBalance_eraseDenom_ne l h]
  · cases hs : hasDenom l d with
    | true => simp [h0, getBalance_replaceAmt_ne l n h]
    | false => simp [h0, getBalance_append_singleton_ne l n h]

theorem getBalance_credit_self (l : Ledger) (d : Denom) (n : Nat) :
    getBalance (credit l d n) d = getBalance l d + n := by
  unfold credit
  rw [getBalance_setBalance_self]

theorem getBalance_credit_ne (l : Ledger) {d e : Denom} (n : Nat) (h : e ≠ d) :
    getBalance (credit l d n) e = getBalance l e := by
  unfold credit
  rw [getBalance_setBalance_ne l _ h]

theorem debit_ok {l : Ledger} {d : Denom} {n : Nat} (h : n ≤ getBalance l d) :
    debit l d n = .ok (setBalance l d (getBalance l d - n)) := by
  unfold debit
  simp [h]

theorem debit_err {l : Ledger} {d : Denom} {n : Nat} (h : getBalance l d < n) :
    debit l d n = .error (.Overflow (getBalance l d) n) := by
  unfold debit
  simp [Nat.not_le.mpr h, Nat.not_le_of_lt h]

theorem credit_nil (d : Denom) {n : Nat} (h : n ≠ 0) : credit [] d n = [(d, n)] := by
  unfold credit setBalance getBalance hasDenom
  simp [h]

/-! ### Execution lemmas -/

theorem ok_bind {α β : Type} (x : α) (f : α → Except ContractError β) :
    (Except.ok x >>= f) = f x := rfl

theorem error_bind {α β : Type} (e : ContractError) (f : α → Except ContractError β) :
    (Except.error e >>= f) = Except.error e := rfl

theorem minOutFromEstimate_le (est s : Nat) : minOutFromEstimate est s ≤ est :=
  Nat.sub_le _ _

theorem validateSwap_ok {env : Env} {l : Ledger} {coinIn : ActionCoin} {denomOut : Denom}
    {s : Nat} (hwl : denomOut ∈ env.whitelist) (hamt : resolveAmount l coinIn ≠ 0)
    (hs : s ≤ env.maxSlippage) :
    validateSwap env l coinIn denomOut s = .ok (resolveAmount l coinIn) := by
  unfold validateSwap
  rw [if_pos hwl, if_neg hamt, if_neg (Nat.not_lt.mpr hs)]

theorem execSwap_ok {env : Env} {l : Ledger} {coinIn : ActionCoin} {denomOut : Denom}
    {s : Nat} (hwl : denomOut ∈ env.whitelist) (hamt : resolveAmount l coinIn ≠ 0)
    (hs : s ≤ env.maxSlippage)
    (hbal : resolveAmount l coinIn ≤ getBalance l coinIn.denom) :
    execSwap env l coinIn denomOut s =
      .ok (credit
        (setBalance l coinIn.denom (getBalance l coinIn.denom - resolveAmount l coinIn))
        denomOut (env.swapper.rate coinIn.denom (resolveAmount l coinIn) denomOut)) := by
  unfold execSwap
  rw [validateSwap_ok hwl hamt hs, ok_bind, debit_ok hbal, ok_bind]
  simp only [Swapper.execute, Swapper.estimate]
  rw [if_neg (Nat.not_lt.mpr (minOutFromEstimate_le _ _))]
  rfl

theorem execSwap_not_whitelisted {env : Env} (l : Ledger) (coinIn : ActionCoin)
    {denomOut : Denom} (s : Nat) (hwl : denomOut ∉ env.whitelist) :
    execSwap env l coinIn denomOut s = .error (.NotWhitelisted denomOut) := by
  unfold execSwap validateSwap
  rw [if_neg hwl]
  rfl

theorem execSwap_no_amount {env : Env} {l : Ledger} {coinIn : ActionCoin}
    {denomOut : Denom} (s : Nat) (hwl : denomOut ∈ env.whitelist)
    (hamt : resolveAmount l coinIn = 0) :
    execSwap env l coinIn denomOut s = .error .NoAmount := by
  unfold execSwap validateSwap
  rw [if_pos hwl, if_pos hamt]
  rfl

theorem execSwap_slippage_exceeded {env : Env} {l : Ledger} {coinIn : ActionCoin}
    {denomOut : Denom} {s : Nat} (hwl : denomOut ∈ env.whitelist)
    (hamt : resolveAmount l coinIn ≠ 0) (hs : env.maxSlippage < s) :
    execSwap env l coinIn denomOut s = .error (.SlippageExceeded s env.maxSlippage) := by
  unfold execSwap validateSwap
  rw [if_pos hwl, if_neg hamt, if_pos hs]
  rfl

theorem execSwap_overflow {env : Env} {l : Ledger} {coinIn : ActionCoin}
    {denomOut : Denom} {s : Nat} (hwl : denomOut ∈ env.whitelist)
    (hs : s ≤ env.maxSlippage)
    (hbal : getBalance l coinIn.denom < resolveAmount l coinIn) :
    execSwap env l coinIn denomOut s =
      .error (.Overflow (getBalance l coinIn.denom) (resolveAmount l coinIn)) := by
  have hamt : resolveAmount l coinIn ≠ 0 := by
    intro h0
    rw [h0] at hbal
    exact Nat.not_lt_zero _ hbal
  unfold execSwap
  rw [validateSwap_ok hwl hamt hs, ok_bind, debit_err hbal]
  rfl

theorem execActions_cons (env : Env) (l : Ledger) (a : Action) (rest : List Action) :
    execActions env l (a :: rest) =
      match execAction env l a with
      | .ok l2 => execActions env l2 rest
      | .error e => .error e := by
  cases h : execAction env l a <;> simp [execActions, h, ok_bind, error_bind]

theorem execActions_append (env : Env) (l : Ledger) (a1 a2 : List Action) :
    execActions env l (a1 ++ a2) =
      match execActions env l a1 with
      | .ok l2 => execActions env l2 a2
      | .error e => .error e := by
  induction a1 generalizing l with
  | nil => cases execActions env l a2 <;> rfl
  | cons a t ih =>
    rw [List.cons_append, execActions_cons, execActions_cons]
    cases execAction env l a with
    | ok l2 => exact ih l2
    | error e => rfl

theorem execActions_nil (env : Env) (l : Ledger) : execActions env l [] = .ok l := rfl

theorem execActions_cons_ok {env : Env} {l l2 : Ledger} {a : Action}
    (rest : List Action) (h : execAction env l a = .ok l2) :
    execActions env l (a :: rest) = execActions env l2 rest := by
  rw [execActions_cons, h]

theorem execActions_cons_err {env : Env} {l : Ledger} {a : Action}
    {e : ContractError} (rest : List Action) (h : execAction env l a = .error e) :
    execActions env l (a :: rest) = .error e := by
  rw [execActions_cons, h]

theorem execActions_append_ok {env : Env} {l l2 : Ledger} {a1 : List Action}
    (a2 : List Action) (h : execActions env l a1 = .ok l2) :
    execActions env l (a1 ++ a2) = execActions env l2 a2 := by
  rw [execActions_append, h]

theorem execAction_deposit (env : Env) (l : Ledger) (d : Denom) (n : Nat) :
    execAction env l (.Deposit d n) = .ok (credit l d n) := rfl

theorem execAction_swap (env : Env) (l : Ledger) (coinIn : ActionCoin)
    (denomOut : Denom) (s : Nat) :
    execAction env l (.SwapExactIn coinIn denomOut s) =
      execSwap env l coinIn denomOut s := rfl

theorem validateSwap_ok_amt {env : Env} {l : Ledger} {coinIn : ActionCoin}
    {denomOut : Denom} {s amt : Nat}
    (h : validateSwap env l coinIn denomOut s = .ok amt) :
    amt = resolveAmount l coinIn := by
  unfold validateSwap at h
  by_cases hwl : denomOut ∈ env.whitelist
  · rw [if_pos hwl] at h
    by_cases h0 : resolveAmount l coinIn = 0
    · rw [if_pos h0] at h
      cases h
    · rw [if_neg h0] at h
      by_cases hs : env.maxSlippage < s
      · rw [if_pos hs] at h
        cases h
      · rw [if_neg hs] at h
        cases h
        rfl
  · rw [if_neg hwl] at h
    cases h

theorem debit_ok_inv {l lmid : Ledger} {d : Denom} {n : Nat}
    (h : debit l d n = .ok lmid) :
    lmid = setBalance l d (getBalance l d - n) := by
  unfold debit at h
  by_cases hle : n ≤ getBalance l d
  · rw [if_pos hle] at h
    cases h
    rfl
  · rw [if_neg hle] at h
    cases h

theorem execute_ok_inv {sw : Swapper} {dIn dOut : Denom} {amtIn minOut out : Nat}
    (h : sw.execute dIn amtIn dOut minOut = .ok out) :
    out = sw.rate dIn amtIn dOut := by
  unfold Swapper.execute at h
  by_cases hlt : sw.rate dIn amtIn dOut < minOut
  · rw [if_pos hlt] at h
    cases h
  · rw [if_neg hlt] at h
    cases h
    rfl

theorem execSwap_ok_inv {env : Env} {l l2 : Ledger} {coinIn : ActionCoin}
    {denomOut : Denom} {s : Nat}
    (h : execSwap env l coinIn denomOut s = .ok l2) :
    l2 = credit
        (setBalance l coinIn.denom (getBalance l coinIn.denom - resolveAmount l coinIn))
        denomOut (env.swapper.rate coinIn.denom (resolveAmount l coinIn) denomOut) := by
  unfold execSwap at h
  cases hv : validateSwap env l coinIn denomOut s with
  | error e =>
    rw [hv, error_bind] at h
    cases h
  | ok amt =>
    rw [hv, ok_bind] at h
    cases hd : debit l coinIn.denom amt with
    | error e =>
      rw [hd, error_bind] at h
      cases h
    | ok lmid =>
      rw [hd, ok_bind] at h
      cases hx : env.swapper.execute coinIn.denom amt denomOut
          (minOutFromEstimate (env.swapper.estimate coinIn.denom amt denomOut) s) with
      | error e =>
        rw [hx, error_bind] at h
        cases h
      | ok out =>
        rw [hx, ok_bind] at h
        cases h
        have hamt := validateSwap_ok_amt hv
        subst hamt
        rw [debit_ok_inv hd, execute_ok_inv hx]

theorem execBatch_owner (env : Env) (owner accountId : String) (l : Ledger)
    (actions : List Action) :
    execBatch env owner owner accountId l actions = execActions env l actions := by
  unfold execBatch assertIsTokenOwner
  rw [if_pos rfl]

theorem execBatch_not_owner {owner caller : String} (env : Env) (accountId : String)
    (l : Ledger) (actions : List Action) (h : caller ≠ owner) :
    execBatch env owner caller accountId l actions =
      .error (.NotTokenOwner caller accountId) := by
  unfold execBatch assertIsTokenOwner
  rw [if_neg h]

theorem getBalance_nil (d : Denom) : getBalance [] d = 0 := rfl

theorem getBalance_singleton_self (d : Denom) (v : Nat) : getBalance [(d, v)] d = v := by
  simp [getBalance]

/-! ### Concrete test fixture -/

/-- A concrete environment mirroring the integration-test fixture: `uosmo`
and `uatom` whitelisted, protocol maximum slippage 0.6 (in atomics of the
18-decimal fixed point), and a mock swapper whose output is always 252014,
standing in for the mock swapper contract's fixed `MOCK_SWAP_RESULT`. -/
def mockEnv : Env :=
  { whitelist := ["uosmo", "uatom"]
    maxSlippage := 6 * 10 ^ 17
    swapper := ⟨fun _ _ _ => 252014⟩ }

/-! ### Claims -/

/-- C1: Atomic commit — for every batch in which some action fails (the
batch aborts with an error), the account's ledger observable after the
attempt equals the ledger before the attempt; no credit or debit from any
action of the batch, including earlier successful actions such as a Deposit
preceding a failing SwapExactIn, remains observable. -/
theorem c1_atomic_commit (env : Env) (owner caller accountId : String) (l : Ledger)
    (actions : List Action) (e : ContractError)
    (h : execBatch env owner caller accountId l actions = .error e) :
    attemptBatch env owner caller accountId l actions = l := by
  unfold attemptBatch
  rw [h]

/-- C1 witness: the insufficient-balance scenario — a successful Deposit of
100 uosmo followed by a SwapExactIn of 10000 uosmo aborts with `Overflow`
and leaves the pre-batch ledger observable, the deposit included. -/
theorem c1_atomic_commit_witness :
    execBatch mockEnv "user" "user" "1" [("umars", 5)]
        [.Deposit "uosmo" 100, .SwapExactIn ⟨"uosmo", .Exact 10000⟩ "uatom" (6 * 10 ^ 17)]
      = .error (.Overflow 100 10000) ∧
    attemptBatch mockEnv "user" "user" "1" [("umars", 5)]
        [.Deposit "uosmo" 100, .SwapExactIn ⟨"uosmo", .Exact 10000⟩ "uatom" (6 * 10 ^ 17)]
      = [("umars", 5)] :=
  ⟨rfl, c1_atomic_commit mockEnv "user" "user" "1" [("umars", 5)]
    [.Deposit "uosmo" 100, .SwapExactIn ⟨"uosmo", .Exact 10000⟩ "uatom" (6 * 10 ^ 17)]
    (.Overflow 100 10000) rfl⟩

/-- C3: Ownership — for every account and every caller identity that is not
the account's owner, any batch submitted by that caller fails with
`NotTokenOwner{user, account_id}` and the ledger is unchanged; the
authorization check succeeds iff the caller is the account's current
owner. -/
theorem c3_ownership (env : Env) (owner caller accountId : String) (l : Ledger)
    (actions : List Action) (h : caller ≠ owner) :
    execBatch env owner caller accountId l actions
      = .error (.NotTokenOwner caller accountId) ∧
    attemptBatch env owner caller accountId l actions = l ∧
    (∀ c : String, assertIsTokenOwner owner c accountId = .ok () ↔ c = owner) := by
  refine ⟨execBatch_not_owner env accountId l actions h, ?_, ?_⟩
  · unfold attemptBatch
    rw [execBatch_not_owner env accountId l actions h]
  · intro c
    constructor
    · intro hc
      by_contra hne
      unfold assertIsTokenOwner at hc
      rw [if_neg hne] at hc
      cases hc
    · intro hc
      unfold assertIsTokenOwner
      rw [if_pos hc]

/-- C3 witness: the caller `another_user` is not the owner `user`, so the
swap batch from the test fails with `NotTokenOwner` and the (empty) ledger
is unchanged. -/
theorem c3_ownership_witness :
    execBatch mockEnv "user" "another_user" "1" []
        [.SwapExactIn ⟨"mars", .Exact 12⟩ "osmo" (6 * 10 ^ 17)]
      = .error (.NotTokenOwner "another_user" "1") ∧
    attemptBatch mockEnv "user" "another_user" "1" []
        [.SwapExactIn ⟨"mars", .Exact 12⟩ "osmo" (6 * 10 ^ 17)] = [] ∧
    (∀ c : String, assertIsTokenOwner "user" c "1" = .ok () ↔ c = "user") :=
  c3_ownership mockEnv "user" "another_user" "1" []
    [.SwapExactIn ⟨"mars", .Exact 12⟩ "osmo" (6 * 10 ^ 17)] (by decide)

/-- C9: Authorization precedes all action validation — a batch submitted by
a non-owner caller yields `NotTokenOwner` even when its actions would
themselves fail validation; the surfaced error is never `NotWhitelisted`,
`NoAmount` or `Overflow` for a caller who does not own the account. -/
theorem c9_auth_precedes_validation (env : Env) (owner caller accountId : String)
    (l : Ledger) (actions : List Action) (h : caller ≠ owner) :
    ∃ e, execBatch env owner caller accountId l actions = .error e ∧
      e = .NotTokenOwner caller accountId ∧
      (∀ d : Denom, e ≠ .NotWhitelisted d) ∧ e ≠ .NoAmount ∧
      (∀ a b : Nat, e ≠ .Overflow a b) := by
  refine ⟨.NotTokenOwner caller accountId,
    execBatch_not_owner env accountId l actions h, rfl, ?_, ?_, ?_⟩
  · intro d hcon
    cases hcon
  · intro hcon
    cases hcon
  · intro a b hcon
    cases hcon

/-- C9 witness: a non-owner submits a swap whose output denomination `osmo`
is not whitelisted and whose input the empty account cannot cover; the
error is still `NotTokenOwner`, not a validation error. -/
theorem c9_auth_precedes_validation_witness :
    ∃ e, execBatch mockEnv "user" "another_user" "1" []
        [.SwapExactIn ⟨"mars", .Exact 12⟩ "osmo" (6 * 10 ^ 17)] = .error e ∧
      e = .NotTokenOwner "another_user" "1" ∧
      (∀ d : Denom, e ≠ .NotWhitelisted d) ∧ e ≠ .NoAmount ∧
      (∀ a b : Nat, e ≠ .Overflow a b) :=
  c9_auth_precedes_validation mockEnv "user" "another_user" "1" []
    [.SwapExactIn ⟨"mars", .Exact 12⟩ "osmo" (6 * 10 ^ 17)] (by decide)

/-- C6: Whitelist enforcement — every SwapExactIn whose output denomination
is not in the whitelist fails with `NotWhitelisted{denom_out}`, for every
ledger whatsoever (in particular when the account holds none of the input
coin). -/
theorem c6_whitelist_enforcement (env : Env) (l : Ledger) (coinIn : ActionCoin)
    (denomOut : Denom) (s : Nat) (h : denomOut ∉ env.whitelist) :
    execAction env l (.SwapExactIn coinIn denomOut s)
      = .error (.NotWhitelisted denomOut) :=
  execSwap_not_whitelisted l coinIn s h

/-- C6 witness: the blacklisted output denomination `ujake` is rejected on
an empty account. -/
theorem c6_whitelist_enforcement_witness :
    execAction mockEnv [] (.SwapExactIn ⟨"ujake2", .Exact 10000⟩ "ujake" (6 * 10 ^ 17))
      = .error (.NotWhitelisted "ujake") :=
  c6_whitelist_enforcement mockEnv [] ⟨"ujake2", .Exact 10000⟩ "ujake" (6 * 10 ^ 17)
    (by decide)

/-- C7: Zero-amount rejection — a SwapExactIn whose resolved input amount is
zero, either as an explicit exact zero or as the full-balance sentinel
resolved against an empty or absent ledger entry, fails with `NoAmount`. -/
theorem c7_zero_amount (env : Env) (l : Ledger) (din dout : Denom) (s : Nat)
    (hwl : dout ∈ env.whitelist) :
    execAction env l (.SwapExactIn ⟨din, .Exact 0⟩ dout s) = .error .NoAmount ∧
    (getBalance l din = 0 →
      execAction env l (.SwapExactIn ⟨din, .AccountBalance⟩ dout s)
        = .error .NoAmount) := by
  constructor
  · exact execSwap_no_amount s hwl rfl
  · intro h0
    exact execSwap_no_amount s hwl h0

/-- C7 witness: an explicit zero-amount swap of uosmo, and a full-balance
swap of uosmo on an account holding none, both fail with `NoAmount`. -/
theorem c7_zero_amount_witness :
    execAction mockEnv [] (.SwapExactIn ⟨"uosmo", .Exact 0⟩ "uatom" (6 * 10 ^ 17))
      = .error .NoAmount ∧
    (getBalance [] "uosmo" = 0 →
      execAction mockEnv [] (.SwapExactIn ⟨"uosmo", .AccountBalance⟩ "uatom" (6 * 10 ^ 17))
        = .error .NoAmount) :=
  c7_zero_amount mockEnv [] "uosmo" "uatom" (6 * 10 ^ 17) (by decide)

/-- C5: Slippage bound — for every requested slippage s and effective
ceiling m, s > m makes the swap fail with `SlippageExceeded{s, m}` (for any
excess, down to a single atomic), while s ≤ m passes validation and
proceeds to dispatch; the check is a pure bound comparison that does not
depend on the Swapper or any quote result. -/
theorem c5_slippage_bound (env : Env) (l : Ledger) (coinIn : ActionCoin)
    (denomOut : Denom) (s : Nat) (hwl : denomOut ∈ env.whitelist)
    (hamt : resolveAmount l coinIn ≠ 0) :
    (env.maxSlippage < s →
      execAction env l (.SwapExactIn coinIn denomOut s)
        = .error (.SlippageExceeded s env.maxSlippage)) ∧
    (s ≤ env.maxSlippage →
      validateSwap env l coinIn denomOut s = .ok (resolveAmount l coinIn)) ∧
    (∀ sw : Swapper,
      validateSwap ⟨env.whitelist, env.maxSlippage, sw⟩ l coinIn denomOut s
        = validateSwap env l coinIn denomOut s) := by
  refine ⟨fun hs => execSwap_slippage_exceeded hwl hamt hs,
    fun hs => validateSwap_ok hwl hamt hs, fun sw => ?_⟩
  rfl

/-- C5 witness: with a ceiling of 0.5, a requested slippage one atomic above
it is rejected with `SlippageExceeded`, while the ceiling itself passes
validation, independently of the swapper. -/
theorem c5_slippage_bound_witness :
    ((⟨["uosmo", "uatom"], 5 * 10 ^ 17, ⟨fun _ _ _ => 252014⟩⟩ : Env).maxSlippage
        < 5 * 10 ^ 17 + 1 →
      execAction ⟨["uosmo", "uatom"], 5 * 10 ^ 17, ⟨fun _ _ _ => 252014⟩⟩ []
          (.SwapExactIn ⟨"uosmo", .Exact 10000⟩ "uatom" (5 * 10 ^ 17 + 1))
        = .error (.SlippageExceeded (5 * 10 ^ 17 + 1)
            (⟨["uosmo", "uatom"], 5 * 10 ^ 17, ⟨fun _ _ _ => 252014⟩⟩ : Env).maxSlippage)) ∧
    (5 * 10 ^ 17 + 1
        ≤ (⟨["uosmo", "uatom"], 5 * 10 ^ 17, ⟨fun _ _ _ => 252014⟩⟩ : Env).maxSlippage →
      validateSwap ⟨["uosmo", "uatom"], 5 * 10 ^ 17, ⟨fun _ _ _ => 252014⟩⟩ []
          ⟨"uosmo", .Exact 10000⟩ "uatom" (5 * 10 ^ 17 + 1)
        = .ok (resolveAmount [] ⟨"uosmo", .Exact 10000⟩)) ∧
    (∀ sw : Swapper,
      validateSwap ⟨["uosmo", "uatom"], 5 * 10 ^ 17, sw⟩ [] ⟨"uosmo", .Exact 10000⟩
          "uatom" (5 * 10 ^ 17 + 1)
        = validateSwap ⟨["uosmo", "uatom"], 5 * 10 ^ 17, ⟨fun _ _ _ => 252014⟩⟩ []
            ⟨"uosmo", .Exact 10000⟩ "uatom" (5 * 10 ^ 17 + 1)) :=
  c5_slippage_bound ⟨["uosmo", "uatom"], 5 * 10 ^ 17, ⟨fun _ _ _ => 252014⟩⟩ []
    ⟨"uosmo", .Exact 10000⟩ "uatom" (5 * 10 ^ 17 + 1) (by decide) (by decide)

/-- C4: Insufficient funds — a SwapExactIn whose resolved input amount
exceeds the current ledger entry for the input denomination, where "current"
reflects all earlier actions of the same batch, fails with
`Overflow{Sub, operand1 = current balance, operand2 = requested amount}`
rather than silently saturating, and no ledger mutation from that action or
any later one is observable. -/
theorem c4_insufficient_funds (env : Env) (owner accountId : String) (l0 l : Ledger)
    (pre post : List Action) (coinIn : ActionCoin) (denomOut : Denom) (s : Nat)
    (hpre : execActions env l0 pre = .ok l)
    (hwl : denomOut ∈ env.whitelist) (hs : s ≤ env.maxSlippage)
    (hbal : getBalance l coinIn.denom < resolveAmount l coinIn) :
    execBatch env owner owner accountId l0
        (pre ++ .SwapExactIn coinIn denomOut s :: post)
      = .error (.Overflow (getBalance l coinIn.denom) (resolveAmount l coinIn)) ∧
    attemptBatch env owner owner accountId l0
        (pre ++ .SwapExactIn coinIn denomOut s :: post) = l0 := by
  have herr : execAction env l (.SwapExactIn coinIn denomOut s)
      = .error (.Overflow (getBalance l coinIn.denom) (resolveAmount l coinIn)) :=
    (execAction_swap env l coinIn denomOut s).trans (execSwap_overflow hwl hs hbal)
  have hb : execBatch env owner owner accountId l0
      (pre ++ .SwapExactIn coinIn denomOut s :: post)
      = .error (.Overflow (getBalance l coinIn.denom) (resolveAmount l coinIn)) := by
    rw [execBatch_owner, execActions_append_ok _ hpre, execActions_cons_err post herr]
  refine ⟨hb, ?_⟩
  unfold attemptBatch
  rw [hb]

/-- C4 witness: after a Deposit of 100 uosmo inside the same batch, a swap
requesting 10000 uosmo fails with `Overflow{operand1 = 100,
operand2 = 10000}` and the pre-batch (empty) ledger is unchanged. -/
theorem c4_insufficient_funds_witness :
    execBatch mockEnv "user" "user" "1" []
        ([.Deposit "uosmo" 100]
          ++ .SwapExactIn ⟨"uosmo", .Exact 10000⟩ "uatom" (6 * 10 ^ 17) :: [])
      = .error (.Overflow 100 10000) ∧
    attemptBatch mockEnv "user" "user" "1" []
        ([.Deposit "uosmo" 100]
          ++ .SwapExactIn ⟨"uosmo", .Exact 10000⟩ "uatom" (6 * 10 ^ 17) :: []) = [] :=
  c4_insufficient_funds mockEnv "user" "1" [] [("uosmo", 100)] [.Deposit "uosmo" 100]
    [] ⟨"uosmo", .Exact 10000⟩ "uatom" (6 * 10 ^ 17) rfl (by decide) (by decide)
    (by decide)

/-- C2: Deposit-then-swap — starting from an empty account, the batch
[Deposit(uatom, 10000), SwapExactIn(coin_in, uosmo, s)], where coin_in is
either the exact amount 10000 of uatom or the full-balance sentinel resolved
against the post-deposit ledger, succeeds and yields a final ledger whose
uosmo balance is exactly the Swapper's output for (uatom, 10000) and whose
uatom balance is zero: the deposit is fully consumed by the swap. -/
theorem c2_deposit_then_swap (env : Env) (owner accountId : String) (s : Nat)
    (amt : ActionAmount) (hamt : amt = .Exact 10000 ∨ amt = .AccountBalance)
    (hwl : "uosmo" ∈ env.whitelist) (hs : s ≤ env.maxSlippage) :
    ∃ res, execBatch env owner owner accountId []
        [.Deposit "uatom" 10000, .SwapExactIn ⟨"uatom", amt⟩ "uosmo" s] = .ok res ∧
      getBalance res "uosmo" = env.swapper.rate "uatom" 10000 "uosmo" ∧
      getBalance res "uatom" = 0 := by
  have hres : resolveAmount [("uatom", 10000)] ⟨"uatom", amt⟩ = 10000 := by
    rcases hamt with h | h
    · rw [h]
      rfl
    · rw [h]
      rfl
  have hne : resolveAmount [("uatom", 10000)] ⟨"uatom", amt⟩ ≠ 0 := by
    rw [hres]
    decide
  have hbal : resolveAmount [("uatom", 10000)] ⟨"uatom", amt⟩
      ≤ getBalance [("uatom", 10000)] (ActionCoin.mk "uatom" amt).denom := by
    rw [hres]
    exact Nat.le.refl
  have hswap := execSwap_ok hwl hne hs hbal
  have hgb : getBalance [("uatom", 10000)] (ActionCoin.mk "uatom" amt).denom = 10000 := rfl
  have hsb : setBalance [("uatom", 10000)] (ActionCoin.mk "uatom" amt).denom 0 = [] := rfl
  have hswap2 : execSwap env [("uatom", 10000)] ⟨"uatom", amt⟩ "uosmo" s
      = .ok (credit [] "uosmo" (env.swapper.rate "uatom" 10000 "uosmo")) := by
    rw [hswap, hres, hgb, Nat.sub_self, hsb]
  have hdep : execAction env [] (.Deposit "uatom" 10000) = .ok [("uatom", 10000)] := by
    rw [execAction_deposit, credit_nil "uatom" (by decide : (10000 : Nat) ≠ 0)]
  refine ⟨credit [] "uosmo" (env.swapper.rate "uatom" 10000 "uosmo"), ?_, ?_, ?_⟩
  · rw [execBatch_owner, execActions_cons_ok _ hdep,
      execActions_cons_ok _
        ((execAction_swap env [("uatom", 10000)] ⟨"uatom", amt⟩ "uosmo" s).trans hswap2),
      execActions_nil]
  · rw [getBalance_credit_self, getBalance_nil]
    exact Nat.zero_add _
  · rw [getBalance_credit_ne [] _ (by decide : "uatom" ≠ "uosmo"), getBalance_nil]

/-- C2 witness: the exact-amount instance in the mock environment — the
batch succeeds and the final ledger holds the mock swap output of uosmo and
zero uatom. -/
theorem c2_deposit_then_swap_witness :
    ∃ res, execBatch mockEnv "user" "user" "2" []
        [.Deposit "uatom" 10000, .SwapExactIn ⟨"uatom", .Exact 10000⟩ "uosmo" (6 * 10 ^ 17)]
      = .ok res ∧
      getBalance res "uosmo" = mockEnv.swapper.rate "uatom" 10000 "uosmo" ∧
      getBalance res "uatom" = 0 :=
  c2_deposit_then_swap mockEnv "user" "2" (6 * 10 ^ 17) (.Exact 10000) (Or.inl rfl)
    (by decide) (by decide)

/-- C8: Estimate consistency — the read-only swap-estimate query returns the
same output amount a dispatched swap credits: whenever a SwapExactIn of
(coin_in, denom_out) succeeds with no intervening ledger change, the amount
added to denom_out equals the previously queried estimate, and any
successful Swapper execute returns exactly the estimate. -/
theorem c8_estimate_consistency (env : Env) (l l2 : Ledger) (din dout : Denom)
    (amtIn s : Nat) (hne : dout ≠ din)
    (h : execAction env l (.SwapExactIn ⟨din, .Exact amtIn⟩ dout s) = .ok l2) :
    getBalance l2 dout = getBalance l dout + querySwapEstimate env din amtIn dout ∧
    (∀ minOut out, env.swapper.execute din amtIn dout minOut = .ok out →
      out = querySwapEstimate env din amtIn dout) := by
  constructor
  · rw [execAction_swap] at h
    rw [execSwap_ok_inv h, getBalance_credit_self, getBalance_setBalance_ne l _ hne]
    rfl
  · intro minOut out hx
    rw [execute_ok_inv hx]
    rfl

/-- C8 witness: in the mock environment, swapping 10000 uatom credits uosmo
by exactly the queried estimate, and every successful execute returns the
estimate. -/
theorem c8_estimate_consistency_witness :
    getBalance [("uosmo", 252014)] "uosmo"
      = getBalance [("uatom", 10000)] "uosmo"
        + querySwapEstimate mockEnv "uatom" 10000 "uosmo" ∧
    (∀ minOut out, mockEnv.swapper.execute "uatom" 10000 "uosmo" minOut = .ok out →
      out = querySwapEstimate mockEnv "uatom" 10000 "uosmo") :=
  c8_estimate_consistency mockEnv [("uatom", 10000)] [("uosmo", 252014)] "uatom"
    "uosmo" 10000 (6 * 10 ^ 17) (by decide) (by rfl)

/-- C10: Zero entries are pruned — a batch that deposits the input
denomination and then swaps its full balance leaves a queried deposit list
holding exactly one entry, the output denomination with the swap result; the
fully drained input denomination is removed rather than kept at zero. -/
theorem c10_zero_entries_pruned (env : Env) (owner accountId din dout : String)
    (n s : Nat) (hne : din ≠ dout) (hwl : dout ∈ env.whitelist) (hn : n ≠ 0)
    (hs : s ≤ env.maxSlippage) (hR : env.swapper.rate din n dout ≠ 0) :
    execBatch env owner owner accountId []
        [.Deposit din n, .SwapExactIn ⟨din, .AccountBalance⟩ dout s]
      = .ok [(dout, env.swapper.rate din n dout)] ∧
    [(dout, env.swapper.rate din n dout)].length = 1 ∧
    hasDenom [(dout, env.swapper.rate din n dout)] din = false := by
  have hres : resolveAmount [(din, n)] ⟨din, .AccountBalance⟩ = n := by
    simp [resolveAmount, getBalance]
  have hne0 : resolveAmount [(din, n)] ⟨din, .AccountBalance⟩ ≠ 0 := by
    rw [hres]
    exact hn
  have hbal : resolveAmount [(din, n)] ⟨din, .AccountBalance⟩
      ≤ getBalance [(din, n)] (ActionCoin.mk din .AccountBalance).denom := by
    rw [hres, getBalance_singleton_self]
  have hswap := execSwap_ok hwl hne0 hs hbal
  have hswap2 : execSwap env [(din, n)] ⟨din, .AccountBalance⟩ dout s
      = .ok (credit [] dout (env.swapper.rate din n dout)) := by
    rw [hswap]
    simp [resolveAmount, getBalance, setBalance, eraseDenom]
  have hdep : execAction env [] (.Deposit din n) = .ok [(din, n)] := by
    rw [execAction_deposit, credit_nil din hn]
  refine ⟨?_, rfl, ?_⟩
  · rw [execBatch_owner, execActions_cons_ok _ hdep,
      execActions_cons_ok _
        ((execAction_swap env [(din, n)] ⟨din, .AccountBalance⟩ dout s).trans hswap2),
      execActions_nil, credit_nil dout hR]
  · simp [hasDenom, Ne.symm hne]

/-- C10 witness: deposit 10000 uatom then swap the full balance to uosmo in
the mock environment — the resulting deposit list is the single entry
(uosmo, mock output) with no uatom entry. -/
theorem c10_zero_entries_pruned_witness :
    execBatch mockEnv "user" "user" "2" []
        [.Deposit "uatom" 10000, .SwapExactIn ⟨"uatom", .AccountBalance⟩ "uosmo" (6 * 10 ^ 17)]
      = .ok [("uosmo", mockEnv.swapper.rate "uatom" 10000 "uosmo")] ∧
    [("uosmo", mockEnv.swapper.rate "uatom" 10000 "uosmo")].length = 1 ∧
    hasDenom [("uosmo", mockEnv.swapper.rate "uatom" 10000 "uosmo")] "uatom" = false :=
  c10_zero_entries_pruned mockEnv "user" "2" "uatom" "uosmo" 10000 (6 * 10 ^ 17)
    (by decide) (by decide) (by decide) (by decide) (by decide)

end MarsCredit
